import Mathlib

/-!
# Verification of the ingress-controller reconciliation core

Shallow embedding of `pkg/operator/controller/ingress/controller.go`.

Pure functions of the source (`setDefaultDomain`, `setDefaultPublishingStrategy`,
`validateDomain`, `validateDomainUniqueness`, `isAdmitted`) are translated
directly.  Go mutates records through pointers; the embedding passes record
values explicitly and returns the updated value.  Stateful collaborator calls
(the read/write client, the cache, and the `ensure*`/`finalize*`/`delete*`
helpers defined in other files of the repository) are abstracted as an explicit
environment holding each call's outcome, and each function returns, besides its
Go return value, the trace of write effects it issued.  Go `error` results are
`Option String` (`none` = nil) or `Except String α` for value-returning calls.
-/

namespace ClusterIngress

/-! ## Constants (string constants of the Go API packages) -/

def IngressControllerAdmittedConditionType : String := "Admitted"

def ConditionTrue : String := "True"

def ConditionFalse : String := "False"

def IngressControllerFinalizer : String := "ingresscontroller.operator.openshift.io/finalizer-ingresscontroller"

def AWSPlatformType : String := "AWS"

def AzurePlatformType : String := "Azure"

def GCPPlatformType : String := "GCP"

def LibvirtPlatformType : String := "Libvirt"

def LoadBalancerServiceStrategyType : String := "LoadBalancerService"

def HostNetworkStrategyType : String := "HostNetwork"

def PrivateStrategyType : String := "Private"

def ExternalLoadBalancer : String := "External"

/-! ## Data model -/

/-- `operatorv1.OperatorCondition` (the fields the controller touches). -/
structure OperatorCondition where
  type : String
  status : String
  reason : String
  message : String
deriving DecidableEq, Repr

/-- `operatorv1.LoadBalancerStrategy`. -/
structure LoadBalancerStrategy where
  scope : String
deriving DecidableEq, Repr

/-- `operatorv1.EndpointPublishingStrategy`: a strategy type plus optional
load-balancer parameters (`nil` pointer in Go is `none`). -/
structure EndpointPublishingStrategy where
  type : String
  loadBalancer : Option LoadBalancerStrategy
deriving DecidableEq, Repr

/-- `operatorv1.IngressControllerSpec` (the fields the controller reads). -/
structure IngressControllerSpec where
  domain : String
  endpointPublishingStrategy : Option EndpointPublishingStrategy
deriving DecidableEq, Repr

/-- `operatorv1.IngressControllerStatus` (the fields the controller touches). -/
structure IngressControllerStatus where
  domain : String
  endpointPublishingStrategy : Option EndpointPublishingStrategy
  conditions : List OperatorCondition
deriving DecidableEq, Repr

/-- `operatorv1.IngressController`: identity, deletion intent, finalizers,
spec and status. -/
structure IngressController where
  name : String
  ns : String
  uid : String
  deletionTimestamp : Option String
  finalizers : List String
  spec : IngressControllerSpec
  status : IngressControllerStatus
deriving DecidableEq, Repr

/-- `configv1.Ingress` cluster config (spec.domain is all that is read). -/
structure IngressSpec where
  domain : String
deriving DecidableEq, Repr

structure Ingress where
  spec : IngressSpec
deriving DecidableEq, Repr

/-- `configv1.Infrastructure` cluster config (status.platform is all that is read). -/
structure InfrastructureStatus where
  platform : String
deriving DecidableEq, Repr

structure Infrastructure where
  status : InfrastructureStatus
deriving DecidableEq, Repr

/-- An observed `iov1.DNSRecord` (its contents are irrelevant here; only
presence/absence is inspected by the controller code under verification). -/
structure DNSRecord where
  name : String
deriving DecidableEq, Repr

/-- An observed `appsv1.Deployment` (only its identity is used, for owner refs). -/
structure Deployment where
  name : String
  uid : String
deriving DecidableEq, Repr

/-- An observed `corev1.Service`. -/
structure Service where
  name : String
deriving DecidableEq, Repr

/-- A write effect issued against the external store.  `statusUpdate` is
`client.Status().Update`, `recordUpdate` is `client.Update` on the
ingresscontroller itself; the `child*` constructors stand for create/update/
delete calls on owned child resources. -/
inductive Effect
  | statusUpdate (ic : IngressController)
  | recordUpdate (ic : IngressController)
  | childCreate (kind name : String)
  | childUpdate (kind name : String)
  | childDelete (kind name : String)
deriving DecidableEq, Repr

/-! ## Library helpers not in the translated file -/

/-- Modelled from the spec: `mergeConditions` (defined in another file of the
repository) merges one condition into a condition list, "preserving unrelated
conditions and only overwriting Type/Status/Reason/Message for a matching
type", appending when no condition of that type exists. -/
def mergeConditions (conditions : List OperatorCondition) (update : OperatorCondition) : List OperatorCondition :=
  if conditions.any (fun c => c.type = update.type) then
    conditions.map (fun c =>
      if c.type = update.type then
        { c with status := update.status, reason := update.reason, message := update.message }
      else c)
  else
    conditions ++ [update]

/-- Modelled from the spec: `ingressStatusesEqual` (defined in another file of
the repository); the spec says status is persisted "only if status actually
changed", so it is modelled as equality of the status embedding. -/
def ingressStatusesEqual (a b : IngressControllerStatus) : Bool :=
  decide (a = b)

/-- `strings.Join`-style comma join used by the error aggregate below. -/
def joinComma : List String → String
  | [] => ""
  | [e] => e
  | e :: rest => e ++ ", " ++ joinComma rest

/-- Modelled from the spec: `utilerrors.NewAggregate(...).Error()` — the
aggregation of several error messages "into a single ... reason string"; the
k8s aggregate prints a single error as itself and several errors as a
bracketed comma-separated list. -/
def aggregateErrorString : List String → String
  | [] => ""
  | [e] => e
  | es => "[" ++ joinComma es ++ "]"

/-- A Go `error` as returned by the converge pass: either a single wrapped
error (early return) or a `utilerrors.NewAggregate` of several. -/
inductive GoError
  | single (msg : String)
  | aggregate (msgs : List String)
deriving DecidableEq, Repr

def goErrorString : GoError → String
  | GoError.single m => m
  | GoError.aggregate ms => aggregateErrorString ms

/-- Substring containment at the character-list level, used to state that a
rejection reason contains a conflicting record's name. -/
def containsSubstr (s sub : String) : Prop :=
  ∃ pre post, pre ++ sub.data ++ post = s.data

/-! ## Admission pipeline (source lines 188–335) -/

/-- `isAdmitted`: the record carries an `Admitted=True` condition. -/
def isAdmitted (ic : IngressController) : Bool :=
  ic.status.conditions.any (fun cond =>
    cond.type = IngressControllerAdmittedConditionType && cond.status = ConditionTrue)

/-- `setDefaultDomain`: pick the effective domain (spec domain when non-empty,
else the cluster ingress config domain) and write it to `status.domain` only
when `status.domain` is still empty.  Returns the updated record and the Go
bool result. -/
def setDefaultDomain (ic : IngressController) (ingressConfig : Ingress) : IngressController × Bool :=
  let effectiveDomain :=
    if ic.spec.domain.length > 0 then ic.spec.domain else ingressConfig.spec.domain
  if ic.status.domain.length = 0 then
    ({ ic with status := { ic.status with domain := effectiveDomain } }, true)
  else
    (ic, false)

/-- `setDefaultPublishingStrategy`: when the spec strategy is nil, build one
from the platform lookup table; default the load-balancer scope to External
when a LoadBalancerService strategy has nil LoadBalancer parameters; write the
effective strategy to status only when the status strategy is still nil.  In
Go `effectiveStrategy` aliases the spec's strategy object when that is
non-nil, so the scope defaulting mutates the spec in place; the embedding
writes the mutated value back into the spec to reflect that aliasing. -/
def setDefaultPublishingStrategy (ic : IngressController) (infraConfig : Infrastructure) : IngressController × Bool :=
  let effectiveStrategy :=
    match ic.spec.endpointPublishingStrategy with
    | some s => s
    | none =>
      let strategyType :=
        if infraConfig.status.platform = AWSPlatformType ∨
           infraConfig.status.platform = AzurePlatformType ∨
           infraConfig.status.platform = GCPPlatformType then
          LoadBalancerServiceStrategyType
        else if infraConfig.status.platform = LibvirtPlatformType then
          HostNetworkStrategyType
        else
          HostNetworkStrategyType
      { type := strategyType, loadBalancer := none }
  let effectiveStrategy :=
    if effectiveStrategy.type = LoadBalancerServiceStrategyType then
      match effectiveStrategy.loadBalancer with
      | none => { effectiveStrategy with loadBalancer := some { scope := ExternalLoadBalancer } }
      | some _ => effectiveStrategy
    else
      effectiveStrategy
  let ic :=
    match ic.spec.endpointPublishingStrategy with
    | some _ => { ic with spec := { ic.spec with endpointPublishingStrategy := some effectiveStrategy } }
    | none => ic
  if ic.status.endpointPublishingStrategy = none then
    ({ ic with status := { ic.status with endpointPublishingStrategy := some effectiveStrategy } }, true)
  else
    (ic, false)

/-- `validateDomain`: the effective (status) domain must be non-empty. -/
def validateDomain (ic : IngressController) : Option String :=
  if ic.status.domain.length = 0 then some "domain is required" else none

/-- `validateDomainUniqueness`: the desired controller's status domain must not
equal the status domain of any *other* (different UID) already-admitted
controller; returns the first conflict found. -/
def validateDomainUniqueness (desired : IngressController) : List IngressController → Option String
  | [] => none
  | current :: rest =>
    if isAdmitted current = false then
      validateDomainUniqueness desired rest
    else if desired.uid ≠ current.uid ∧ desired.status.domain = current.status.domain then
      some ("conflicts with: " ++ current.name)
    else
      validateDomainUniqueness desired rest

/-- An error returned by `admit`/`validate`: either an `admissionRejection`
(carrying the aggregated reason string) or an operational error of another
type. -/
inductive AdmitError
  | rejection (reason : String)
  | operational (msg : String)
deriving DecidableEq, Repr

/-- `validate`: list the sibling ingresscontrollers (outcome supplied by the
environment), run both validation checks, and aggregate their failures into a
single `admissionRejection`; a list failure is an operational error. -/
def validate (ic : IngressController) (listResult : Except String (List IngressController)) : Option AdmitError :=
  match listResult with
  | Except.error e => some (AdmitError.operational ("failed to list ingresscontrollers: " ++ e))
  | Except.ok items =>
    let errs :=
      (match validateDomain ic with | some e => [e] | none => []) ++
      (match validateDomainUniqueness ic items with | some e => [e] | none => [])
    match errs with
    | [] => none
    | es => some (AdmitError.rejection (aggregateErrorString es))

deriving instance DecidableEq for Except

/-- Environment for one `admit` call: the outcome of the sibling list and of
the status update (when one is issued). -/
structure AdmitEnv where
  listResult : Except String (List IngressController)
  statusUpdateResult : Option String
deriving DecidableEq, Repr

/-- Outcome of one `admit` call: the Go error result, the trace of issued
write effects, the final value of the local `updated` deep copy, and the
caller's record as it stands after the call (Go mutates only the deep copy,
so the caller's record is returned unchanged). -/
structure AdmitOutcome where
  result : Option AdmitError
  effects : List Effect
  updated : IngressController
  callerRecord : IngressController
deriving DecidableEq, Repr

/-- The defaulting prefix of `admit`: `updated := current.DeepCopy()` followed
by `setDefaultDomain` and `setDefaultPublishingStrategy` on the copy. -/
def admitDefaulted (current : IngressController) (ingressConfig : Ingress) (infraConfig : Infrastructure) : IngressController :=
  let updated := (setDefaultDomain current ingressConfig).1
  (setDefaultPublishingStrategy updated infraConfig).1

/-- `admit`: default the deep copy, validate it, merge an `Admitted` condition
(False with the rejection reason, or True), and issue a status update only
when the updated status differs from the current status. -/
def admitIngressController (current : IngressController) (ingressConfig : Ingress) (infraConfig : Infrastructure) (env : AdmitEnv) : AdmitOutcome :=
  let updated := admitDefaulted current ingressConfig infraConfig
  match validate updated env.listResult with
  | some (AdmitError.rejection reason) =>
    let updated :=
      { updated with
        status :=
          { updated.status with
            conditions :=
              mergeConditions updated.status.conditions
                { type := IngressControllerAdmittedConditionType,
                  status := ConditionFalse,
                  reason := "Invalid",
                  message := reason } } }
    if ingressStatusesEqual current.status updated.status then
      { result := some (AdmitError.rejection reason), effects := [],
        updated := updated, callerRecord := current }
    else
      match env.statusUpdateResult with
      | some e =>
        { result := some (AdmitError.operational ("failed to update status: " ++ e)),
          effects := [Effect.statusUpdate updated], updated := updated, callerRecord := current }
      | none =>
        { result := some (AdmitError.rejection reason),
          effects := [Effect.statusUpdate updated], updated := updated, callerRecord := current }
  | some (AdmitError.operational msg) =>
    { result := some (AdmitError.operational msg), effects := [],
      updated := updated, callerRecord := current }
  | none =>
    let updated :=
      { updated with
        status :=
          { updated.status with
            conditions :=
              mergeConditions updated.status.conditions
                { type := IngressControllerAdmittedConditionType,
                  status := ConditionTrue,
                  reason := "Valid",
                  message := "" } } }
    if ingressStatusesEqual current.status updated.status then
      { result := none, effects := [], updated := updated, callerRecord := current }
    else
      match env.statusUpdateResult with
      | some e =>
        { result := some (AdmitError.operational ("failed to update status: " ++ e)),
          effects := [Effect.statusUpdate updated], updated := updated, callerRecord := current }
      | none =>
        { result := none, effects := [Effect.statusUpdate updated],
          updated := updated, callerRecord := current }

/-! ## Deletion protocol (source lines 337–375) -/

/-- Environment for one `ensureIngressDeleted` pass: the outcome of each
collaborator call it makes, in program order.  `none` / `Except.ok` is a nil
Go error. -/
structure DeletionEnv where
  finalizeLoadBalancerServiceResult : Option String
  deleteWildcardDNSRecordResult : Option String
  currentWildcardDNSRecordResult : Except String (Option DNSRecord)
  ensureRouterDeletedResult : Option String
  removeFinalizerUpdateResult : Option String
deriving DecidableEq, Repr

/-- Outcome of one `ensureIngressDeleted` pass.  `result` is the returned
`utilerrors.NewAggregate(errs)`, embedded as the list of collected messages
(`[]` is the nil aggregate).  `finalizerUpdateIssued` records whether the
finalizer-removal `client.Update` call was made, and `haltedForDNS` whether
the pass returned early because the wildcard DNS record was still present. -/
structure DeletionOutcome where
  result : List String
  finalizerUpdateIssued : Bool
  haltedForDNS : Bool
deriving DecidableEq, Repr

/-- The tail of `ensureIngressDeleted` after the DNS-record check: delete the
router deployment, and, if no error was collected this pass and the finalizer
is present, issue the update that removes the finalizer. -/
def ensureIngressDeletedTail (ingress : IngressController) (env : DeletionEnv) (errs : List String) : DeletionOutcome :=
  let errs :=
    match env.ensureRouterDeletedResult with
    | some e => errs ++ ["failed to delete deployment for ingress " ++ ingress.name ++ ": " ++ e]
    | none => errs
  if errs = [] then
    if ingress.finalizers.contains IngressControllerFinalizer then
      match env.removeFinalizerUpdateResult with
      | some e =>
        { result := ["failed to remove finalizer from ingresscontroller " ++ ingress.name ++ ": " ++ e],
          finalizerUpdateIssued := true, haltedForDNS := false }
      | none =>
        { result := [], finalizerUpdateIssued := true, haltedForDNS := false }
    else
      { result := [], finalizerUpdateIssued := false, haltedForDNS := false }
  else
    { result := errs, finalizerUpdateIssued := false, haltedForDNS := false }

/-- `ensureIngressDeleted`: finalize the load-balancer service, delete the
wildcard DNS record, and read the current DNS record; if a record is still
observed the pass returns nil immediately (waiting for asynchronous DNS
finalization).  Otherwise continue with the tail above. -/
def ensureIngressDeleted (ingress : IngressController) (env : DeletionEnv) : DeletionOutcome :=
  let errs : List String := []
  let errs :=
    match env.finalizeLoadBalancerServiceResult with
    | some e => errs ++ ["failed to finalize load balancer service for " ++ ingress.ns ++ "/" ++ ingress.name ++ ": " ++ e]
    | none => errs
  let errs :=
    match env.deleteWildcardDNSRecordResult with
    | some e => errs ++ ["failed to delete wildcard dnsrecord: " ++ e]
    | none => errs
  match env.currentWildcardDNSRecordResult with
  | Except.error e =>
    ensureIngressDeletedTail ingress env (errs ++ ["failed to get current wildcard dnsrecord: " ++ e])
  | Except.ok (some _) =>
    { result := [], finalizerUpdateIssued := false, haltedForDNS := true }
  | Except.ok none =>
    ensureIngressDeletedTail ingress env errs

/-! ## Convergence engine (source lines 377–449) -/

/-- Environment for one `ensureIngressController` pass: the outcome of each
collaborator call, in program order. -/
structure ConvergeEnv where
  updateFinalizersResult : Option String
  getAfterUpdateResult : Except String IngressController
  ensureRouterNamespaceResult : Option String
  ensureRouterDeploymentResult : Except String Deployment
  ensureLoadBalancerServiceResult : Except String (Option Service)
  ensureWildcardDNSRecordResult : Except String DNSRecord
  ensureInternalServiceResult : Except String Service
  ensureMetricsIntegrationResult : Option String
  ensureRsyslogConfigMapResult : Option String
  ensureRouterPodDisruptionBudgetResult : Option String
  listEventsResult : Except String Nat
  syncStatusResult : Option String
deriving DecidableEq, Repr

/-- Outcome of one `ensureIngressController` pass: the Go error result
(`single` for an early-return wrapped error, `aggregate` for the final
`NewAggregate`), and the names of the ensure steps that were invoked, in
order. -/
structure ConvergeOutcome where
  result : Option GoError
  attempted : List String
deriving DecidableEq, Repr

/-- `ensureIngressController`: ensure the finalizer (write-then-reread when
absent), ensure the namespace, ensure the router deployment — each of these
three aborts the pass on failure with a single wrapped error — then run the
remaining branches, collecting their failures into one aggregate: the
load-balancer service (and, on its success, the wildcard DNS record), the
internal service (and, on its success, metrics integration), the rsyslog
config map, the pod disruption budget, the operand event list, and the status
sync. -/
def ensureIngressController (ci : IngressController) (env : ConvergeEnv) : ConvergeOutcome :=
  let finStep : Except ConvergeOutcome (IngressController × List String) :=
    if ci.finalizers.contains IngressControllerFinalizer = false then
      match env.updateFinalizersResult with
      | some e =>
        Except.error { result := some (GoError.single ("failed to update finalizers: " ++ e)),
                       attempted := ["finalizerUpdate"] }
      | none =>
        match env.getAfterUpdateResult with
        | Except.error e =>
          Except.error { result := some (GoError.single ("failed to get ingresscontroller: " ++ e)),
                         attempted := ["finalizerUpdate"] }
        | Except.ok updated => Except.ok (updated, ["finalizerUpdate"])
    else
      Except.ok (ci, [])
  match finStep with
  | Except.error out => out
  | Except.ok (ci, att) =>
    match env.ensureRouterNamespaceResult with
    | some e =>
      { result := some (GoError.single ("failed to ensure namespace: " ++ e)),
        attempted := att ++ ["routerNamespace"] }
    | none =>
      let att := att ++ ["routerNamespace"]
      match env.ensureRouterDeploymentResult with
      | Except.error e =>
        { result := some (GoError.single ("failed to ensure deployment: " ++ e)),
          attempted := att ++ ["routerDeployment"] }
      | Except.ok _deployment =>
        let att := att ++ ["routerDeployment"]
        let errs : List String := []
        let (errs, att) :=
          match env.ensureLoadBalancerServiceResult with
          | Except.error e =>
            (errs ++ ["failed to ensure load balancer service for " ++ ci.name ++ ": " ++ e],
             att ++ ["loadBalancerService"])
          | Except.ok _lb =>
            match env.ensureWildcardDNSRecordResult with
            | Except.error e =>
              (errs ++ ["failed to ensure wildcard dnsrecord for " ++ ci.name ++ ": " ++ e],
               att ++ ["loadBalancerService", "wildcardDNSRecord"])
            | Except.ok _rec =>
              (errs, att ++ ["loadBalancerService", "wildcardDNSRecord"])
        let (errs, att) :=
          match env.ensureInternalServiceResult with
          | Except.error e =>
            (errs ++ ["failed to create internal router service for ingresscontroller " ++ ci.name ++ ": " ++ e],
             att ++ ["internalService"])
          | Except.ok _svc =>
            match env.ensureMetricsIntegrationResult with
            | some e =>
              (errs ++ ["failed to integrate metrics with openshift-monitoring for ingresscontroller " ++ ci.name ++ ": " ++ e],
               att ++ ["internalService", "metricsIntegration"])
            | none =>
              (errs, att ++ ["internalService", "metricsIntegration"])
        let (errs, att) :=
          match env.ensureRsyslogConfigMapResult with
          | some e => (errs ++ [e], att ++ ["rsyslogConfigMap"])
          | none => (errs, att ++ ["rsyslogConfigMap"])
        let (errs, att) :=
          match env.ensureRouterPodDisruptionBudgetResult with
          | some e => (errs ++ [e], att ++ ["podDisruptionBudget"])
          | none => (errs, att ++ ["podDisruptionBudget"])
        let (errs, att) :=
          match env.listEventsResult with
          | Except.error e =>
            (errs ++ ["failed to list events in namespace \"openshift-ingress\": " ++ e],
             att ++ ["listEvents"])
          | Except.ok _events => (errs, att ++ ["listEvents"])
        let (errs, att) :=
          match env.syncStatusResult with
          | some e => (errs ++ ["failed to sync ingresscontroller status: " ++ e], att ++ ["syncStatus"])
          | none => (errs, att ++ ["syncStatus"])
        { result := if errs = [] then none else some (GoError.aggregate errs),
          attempted := att }

/-! ## Reconcile driver (source lines 121–186) -/

/-- Outcome of the initial `client.Get` on the ingresscontroller: found, not
found, or another error. -/
inductive GetError
  | notFound
  | other (msg : String)
deriving DecidableEq, Repr

/-- Environment for one `Reconcile` pass: the outcome of each read at the top
of the pass and the environments of the sub-passes it may run. -/
structure ReconcileEnv where
  getIngressResult : Except GetError IngressController
  deletionEnv : DeletionEnv
  getDNSConfigResult : Option String
  getInfraConfigResult : Except String Infrastructure
  getIngressConfigResult : Except String Ingress
  admitEnv : AdmitEnv
  convergeEnv : ConvergeEnv
deriving DecidableEq, Repr

/-- Outcome of one `Reconcile` pass: the `reconcile.Result.Requeue` flag, the
Go error result, and the events sent to the recorder as
(eventtype, reason, message) triples. -/
structure ReconcileOutcome where
  requeue : Bool
  error : Option String
  events : List (String × String × String)
deriving DecidableEq, Repr

/-- `Reconcile`: fetch the record (NotFound is a completed no-op), branch to
the deletion protocol when deletion is requested, fetch the three cluster
configs, run admission when the record is not yet admitted (rejection is
terminal with a Warning event; success requeues with a Normal event), and
otherwise run the convergence engine. -/
def Reconcile (env : ReconcileEnv) : ReconcileOutcome :=
  match env.getIngressResult with
  | Except.error GetError.notFound =>
    { requeue := false, error := none, events := [] }
  | Except.error (GetError.other e) =>
    { requeue := false, error := some ("failed to get ingresscontroller: " ++ e), events := [] }
  | Except.ok ingress =>
    if ingress.deletionTimestamp.isSome then
      match (ensureIngressDeleted ingress env.deletionEnv).result with
      | [] => { requeue := false, error := none, events := [] }
      | errs =>
        { requeue := false,
          error := some ("failed to ensure ingress deletion: " ++ aggregateErrorString errs),
          events := [] }
    else
      match env.getDNSConfigResult with
      | some e =>
        { requeue := false, error := some ("failed to get dns cluster: " ++ e), events := [] }
      | none =>
        match env.getInfraConfigResult with
        | Except.error e =>
          { requeue := false, error := some ("failed to get infrastructure cluster: " ++ e), events := [] }
        | Except.ok infraConfig =>
          match env.getIngressConfigResult with
          | Except.error e =>
            { requeue := false, error := some ("failed to get ingress cluster: " ++ e), events := [] }
          | Except.ok ingressConfig =>
            if isAdmitted ingress = false then
              match (admitIngressController ingress ingressConfig infraConfig env.admitEnv).result with
              | some (AdmitError.rejection reason) =>
                { requeue := false, error := none, events := [("Warning", "Rejected", reason)] }
              | some (AdmitError.operational e) =>
                { requeue := false, error := some ("failed to admit ingresscontroller: " ++ e),
                  events := [] }
              | none =>
                { requeue := true, error := none,
                  events := [("Normal", "Admitted", "ingresscontroller passed validation")] }
            else
              match (ensureIngressController ingress env.convergeEnv).result with
              | none => { requeue := false, error := none, events := [] }
              | some ge =>
                { requeue := false,
                  error := some ("failed to ensure ingresscontroller: " ++ goErrorString ge),
                  events := [] }

/-! ## General lemmas -/

theorem string_length_eq_zero_iff (s : String) : s.length = 0 ↔ s = "" := by
  cases s with
  | mk data => cases data <;> simp [String.length, String.ext_iff]

theorem string_data_append (a b : String) : (a ++ b).data = a.data ++ b.data := rfl

theorem ingressStatusesEqual_iff (a b : IngressControllerStatus) :
    ingressStatusesEqual a b = true ↔ a = b := by
  simp [ingressStatusesEqual]

/-! ## Sample records used by witnesses -/

def sampleSpec : IngressControllerSpec :=
  { domain := "", endpointPublishingStrategy := none }

def sampleStatus : IngressControllerStatus :=
  { domain := "", endpointPublishingStrategy := none, conditions := [] }

def sampleIC : IngressController :=
  { name := "default", ns := "openshift-ingress-operator", uid := "uid-1",
    deletionTimestamp := none, finalizers := [], spec := sampleSpec, status := sampleStatus }

def sampleIngressConfig : Ingress := { spec := { domain := "apps.example.com" } }

def sampleInfraConfig : Infrastructure := { status := { platform := "AWS" } }

/-! ## C10 -/

/-- C10: when `spec.EndpointPublishingStrategy` is non-nil with type
`LoadBalancerService` and nil `LoadBalancer` parameters,
`setDefaultPublishingStrategy` writes the default External scope into the
spec's own strategy object through the shared pointer, so the record's spec —
not only its status — is modified by defaulting, while the rest of the spec
(its domain) is unchanged. -/
theorem setDefaultPublishingStrategy_mutates_spec_through_alias
    (ic : IngressController) (infraConfig : Infrastructure)
    (h : ic.spec.endpointPublishingStrategy =
      some { type := LoadBalancerServiceStrategyType, loadBalancer := none }) :
    (setDefaultPublishingStrategy ic infraConfig).1.spec.endpointPublishingStrategy =
      some { type := LoadBalancerServiceStrategyType,
             loadBalancer := some { scope := ExternalLoadBalancer } } ∧
    (setDefaultPublishingStrategy ic infraConfig).1.spec.domain = ic.spec.domain ∧
    (setDefaultPublishingStrategy ic infraConfig).1.spec ≠ ic.spec := by
  have h1 : (setDefaultPublishingStrategy ic infraConfig).1.spec.endpointPublishingStrategy =
      some { type := LoadBalancerServiceStrategyType,
             loadBalancer := some { scope := ExternalLoadBalancer } } := by
    unfold setDefaultPublishingStrategy
    rw [h]
    by_cases hs : ic.status.endpointPublishingStrategy = none <;> simp [hs]
  have h2 : (setDefaultPublishingStrategy ic infraConfig).1.spec.domain = ic.spec.domain := by
    unfold setDefaultPublishingStrategy
    rw [h]
    by_cases hs : ic.status.endpointPublishingStrategy = none <;> simp [hs]
  refine ⟨h1, h2, fun heq => ?_⟩
  have h3 := congrArg IngressControllerSpec.endpointPublishingStrategy heq
  rw [h1, h] at h3
  simp at h3

theorem setDefaultPublishingStrategy_mutates_spec_through_alias_witness :
    (setDefaultPublishingStrategy
        { sampleIC with spec :=
          { domain := "",
            endpointPublishingStrategy :=
              some { type := LoadBalancerServiceStrategyType, loadBalancer := none } } }
        sampleInfraConfig).1.spec.endpointPublishingStrategy =
      some { type := LoadBalancerServiceStrategyType,
             loadBalancer := some { scope := ExternalLoadBalancer } } :=
  (setDefaultPublishingStrategy_mutates_spec_through_alias
    { sampleIC with spec :=
      { domain := "",
        endpointPublishingStrategy :=
          some { type := LoadBalancerServiceStrategyType, loadBalancer := none } } }
    sampleInfraConfig rfl).1

/-! ## C6 -/

/-- Spec-side definition of the default strategy table, following the spec's
words: cloud platforms (AWS, Azure, GCP) get a load-balanced service whose
scope defaults to External; Libvirt and every other platform fall back to
host-network with no parameters. -/
def specDefaultStrategy (platform : String) : EndpointPublishingStrategy :=
  if platform = AWSPlatformType ∨ platform = AzurePlatformType ∨ platform = GCPPlatformType then
    { type := LoadBalancerServiceStrategyType,
      loadBalancer := some { scope := ExternalLoadBalancer } }
  else
    { type := HostNetworkStrategyType, loadBalancer := none }

/-- C6: when `spec.EndpointPublishingStrategy` is unset,
`setDefaultPublishingStrategy` chooses the strategy by the fixed platform
table (AWS, Azure, GCP → LoadBalancerService with default External scope;
Libvirt and every other platform → HostNetwork), and writes the effective
strategy into status only if `status.EndpointPublishingStrategy` is still
nil; explicit LoadBalancer parameters in a set spec strategy are never
overwritten by the scope defaulting. -/
theorem setDefaultPublishingStrategy_spec
    (ic : IngressController) (infraConfig : Infrastructure)
    (h : ic.spec.endpointPublishingStrategy = none) :
    ((ic.status.endpointPublishingStrategy = none →
      setDefaultPublishingStrategy ic infraConfig =
        ({ ic with
            status := { ic.status with
              endpointPublishingStrategy := some (specDefaultStrategy infraConfig.status.platform) } },
          true)) ∧
     (ic.status.endpointPublishingStrategy ≠ none →
      setDefaultPublishingStrategy ic infraConfig = (ic, false))) ∧
    (∀ ic2 : IngressController, ∀ infra2 t lb,
      ic2.spec.endpointPublishingStrategy = some { type := t, loadBalancer := some lb } →
      (setDefaultPublishingStrategy ic2 infra2).1.spec.endpointPublishingStrategy =
        some { type := t, loadBalancer := some lb }) := by
  refine ⟨⟨fun hs => ?_, fun hs => ?_⟩, fun ic2 infra2 t lb h2 => ?_⟩
  · unfold setDefaultPublishingStrategy specDefaultStrategy
    rw [h]
    by_cases hp : infraConfig.status.platform = AWSPlatformType ∨
        infraConfig.status.platform = AzurePlatformType ∨
        infraConfig.status.platform = GCPPlatformType <;>
      simp [hp, hs, LoadBalancerServiceStrategyType, HostNetworkStrategyType]
  · unfold setDefaultPublishingStrategy
    rw [h]
    by_cases hp : infraConfig.status.platform = AWSPlatformType ∨
        infraConfig.status.platform = AzurePlatformType ∨
        infraConfig.status.platform = GCPPlatformType <;>
      simp [hp, hs, LoadBalancerServiceStrategyType, HostNetworkStrategyType]
  · unfold setDefaultPublishingStrategy
    rw [h2]
    by_cases hs2 : ic2.status.endpointPublishingStrategy = none <;>
      by_cases ht : t = LoadBalancerServiceStrategyType <;> simp [hs2, ht]

theorem setDefaultPublishingStrategy_spec_witness :
    (setDefaultPublishingStrategy sampleIC sampleInfraConfig =
      ({ sampleIC with
          status := { sampleIC.status with
            endpointPublishingStrategy := some (specDefaultStrategy sampleInfraConfig.status.platform) } },
        true)) :=
  ((setDefaultPublishingStrategy_spec sampleIC sampleInfraConfig rfl).1.1) rfl

/-! ## C5 -/

/-- `setDefaultPublishingStrategy` never touches either domain field. -/
theorem setDefaultPublishingStrategy_preserves_domains
    (ic : IngressController) (infraConfig : Infrastructure) :
    (setDefaultPublishingStrategy ic infraConfig).1.status.domain = ic.status.domain ∧
    (setDefaultPublishingStrategy ic infraConfig).1.spec.domain = ic.spec.domain := by
  unfold setDefaultPublishingStrategy
  cases hsp : ic.spec.endpointPublishingStrategy <;>
    by_cases hst : ic.status.endpointPublishingStrategy = none <;>
      simp [hsp, hst]

/-- Every effect `admit` issues is a status update carrying its final
`updated` record. -/
theorem admit_effects_all_statusUpdate
    (current : IngressController) (ingressConfig : Ingress) (infraConfig : Infrastructure)
    (env : AdmitEnv) :
    ∀ ef ∈ (admitIngressController current ingressConfig infraConfig env).effects,
      ef = Effect.statusUpdate (admitIngressController current ingressConfig infraConfig env).updated := by
  intro ef hef
  rcases hv : validate (admitDefaulted current ingressConfig infraConfig) env.listResult with
    _ | ae
  · simp only [admitIngressController, hv] at hef ⊢
    split at hef <;> simp_all
    split at hef <;> simp_all
  · cases ae with
    | rejection reason =>
      simp only [admitIngressController, hv] at hef ⊢
      split at hef <;> simp_all
      split at hef <;> simp_all
    | operational msg =>
      simp only [admitIngressController, hv] at hef ⊢
      simp_all

/-- The final `updated` record of `admit` differs from the defaulted copy only
in its conditions list. -/
theorem admit_updated_status_fields
    (current : IngressController) (ingressConfig : Ingress) (infraConfig : Infrastructure)
    (env : AdmitEnv) :
    (admitIngressController current ingressConfig infraConfig env).updated.status.domain =
      (admitDefaulted current ingressConfig infraConfig).status.domain ∧
    (admitIngressController current ingressConfig infraConfig env).updated.spec =
      (admitDefaulted current ingressConfig infraConfig).spec := by
  rcases hv : validate (admitDefaulted current ingressConfig infraConfig) env.listResult with
    _ | ae
  · constructor <;>
      (simp only [admitIngressController, hv]
       split
       · simp
       · split <;> simp)
  · cases ae with
    | rejection reason =>
      constructor <;>
        (simp only [admitIngressController, hv]
         split
         · simp
         · split <;> simp)
    | operational msg =>
      constructor <;> simp only [admitIngressController, hv]

/-- C5: domain immutability — once `status.domain` is non-empty, neither
`setDefaultDomain` nor any `admit` call changes it: the record `admit`
computes, and the record of any status write it issues, carry the same
`status.domain` as the current record. -/
theorem status_domain_immutable
    (ic : IngressController) (ingressConfig : Ingress) (infraConfig : Infrastructure)
    (env : AdmitEnv) (h : ic.status.domain ≠ "") :
    (setDefaultDomain ic ingressConfig).1.status.domain = ic.status.domain ∧
    (admitIngressController ic ingressConfig infraConfig env).updated.status.domain = ic.status.domain ∧
    (∀ u, Effect.statusUpdate u ∈ (admitIngressController ic ingressConfig infraConfig env).effects →
      u.status.domain = ic.status.domain) := by
  have hd : ¬ ic.status.domain.length = 0 := by
    rw [string_length_eq_zero_iff]; exact h
  have h1 : (setDefaultDomain ic ingressConfig).1 = ic := by
    unfold setDefaultDomain
    rw [if_neg hd]
  have h2 : (admitDefaulted ic ingressConfig infraConfig).status.domain = ic.status.domain := by
    unfold admitDefaulted
    rw [h1]
    exact (setDefaultPublishingStrategy_preserves_domains ic infraConfig).1
  have h3 := (admit_updated_status_fields ic ingressConfig infraConfig env).1
  refine ⟨by rw [h1], by rw [h3, h2], fun u hu => ?_⟩
  have h4 := admit_effects_all_statusUpdate ic ingressConfig infraConfig env _ hu
  have h5 : u = (admitIngressController ic ingressConfig infraConfig env).updated := by
    injection h4 with h5x
  rw [h5, h3, h2]

theorem status_domain_immutable_witness :
    ({ sampleIC with status := { sampleStatus with domain := "apps.fixed.com" } } :
        IngressController).status.domain ≠ "" ∧
    (setDefaultDomain { sampleIC with status := { sampleStatus with domain := "apps.fixed.com" } }
        sampleIngressConfig).1.status.domain =
      ({ sampleIC with status := { sampleStatus with domain := "apps.fixed.com" } } :
        IngressController).status.domain :=
  ⟨by decide,
   (status_domain_immutable
      { sampleIC with status := { sampleStatus with domain := "apps.fixed.com" } }
      sampleIngressConfig sampleInfraConfig
      { listResult := Except.ok [], statusUpdateResult := none }
      (by decide)).1⟩

/-! ## C1 -/

/-- If errors were already collected before the tail, the finalizer-removal
update is never issued. -/
theorem ensureIngressDeletedTail_update_requires_no_errs
    (ingress : IngressController) (env : DeletionEnv) (errs : List String)
    (h : (ensureIngressDeletedTail ingress env errs).finalizerUpdateIssued = true) :
    errs = [] := by
  rcases hr : env.ensureRouterDeletedResult with _ | e <;>
    simp only [ensureIngressDeletedTail, hr] at h <;>
    split at h <;>
    simp_all

/-- C1: the teardown finalizer is never removed while the wildcard DNS record
is still observable — a pass whose DNS read returns a live record returns nil
with no finalizer update, and the finalizer-removal update is issued only on
a pass whose DNS read returned absent. -/
theorem finalizer_removal_gated_on_dns_absence
    (ingress : IngressController) (env : DeletionEnv) :
    (∀ rec, env.currentWildcardDNSRecordResult = Except.ok (some rec) →
      (ensureIngressDeleted ingress env).finalizerUpdateIssued = false ∧
      (ensureIngressDeleted ingress env).result = []) ∧
    ((ensureIngressDeleted ingress env).finalizerUpdateIssued = true →
      env.currentWildcardDNSRecordResult = Except.ok none) := by
  constructor
  · intro rec hrec
    simp [ensureIngressDeleted, hrec]
  · intro hiss
    rcases hc : env.currentWildcardDNSRecordResult with e3 | o
    · exfalso
      simp only [ensureIngressDeleted, hc] at hiss
      have hne := ensureIngressDeletedTail_update_requires_no_errs ingress env _ hiss
      rcases hf : env.finalizeLoadBalancerServiceResult with _ | e1 <;>
        rcases hd : env.deleteWildcardDNSRecordResult with _ | e2 <;>
        simp [hf, hd] at hne
    · rcases o with _ | rec
      · rfl
      · exfalso
        simp only [ensureIngressDeleted, hc] at hiss
        simp at hiss

theorem finalizer_removal_gated_on_dns_absence_witness :
    ({ finalizeLoadBalancerServiceResult := none,
       deleteWildcardDNSRecordResult := none,
       currentWildcardDNSRecordResult := Except.ok (some { name := "default-wildcard" }),
       ensureRouterDeletedResult := none,
       removeFinalizerUpdateResult := none } : DeletionEnv).currentWildcardDNSRecordResult =
        Except.ok (some { name := "default-wildcard" }) ∧
    (ensureIngressDeleted sampleIC
      { finalizeLoadBalancerServiceResult := none,
        deleteWildcardDNSRecordResult := none,
        currentWildcardDNSRecordResult := Except.ok (some { name := "default-wildcard" }),
        ensureRouterDeletedResult := none,
        removeFinalizerUpdateResult := none }).finalizerUpdateIssued = false :=
  ⟨rfl,
   ((finalizer_removal_gated_on_dns_absence sampleIC
      { finalizeLoadBalancerServiceResult := none,
        deleteWildcardDNSRecordResult := none,
        currentWildcardDNSRecordResult := Except.ok (some { name := "default-wildcard" }),
        ensureRouterDeletedResult := none,
        removeFinalizerUpdateResult := none }).1 { name := "default-wildcard" } rfl).1⟩

/-! ## C3 -/

/-- A deletion-pass environment in which finalizing the load-balancer service
fails while the wildcard DNS record is still observed. -/
def dnsWaitEnv : DeletionEnv :=
  { finalizeLoadBalancerServiceResult := some "lb finalize failed",
    deleteWildcardDNSRecordResult := none,
    currentWildcardDNSRecordResult := Except.ok (some { name := "default-wildcard" }),
    ensureRouterDeletedResult := none,
    removeFinalizerUpdateResult := none }

/-- C3 counterexample: on a pass where the load-balancer finalize step fails
but the wildcard DNS record is still observed, `ensureIngressDeleted` returns
the nil aggregate — the collected error is silently dropped by the early
DNS-wait return, so not every step error reaches the returned aggregate. -/
theorem deletion_error_dropped_on_dns_wait :
    dnsWaitEnv.finalizeLoadBalancerServiceResult = some "lb finalize failed" ∧
    (∃ rec, dnsWaitEnv.currentWildcardDNSRecordResult = Except.ok (some rec)) ∧
    (ensureIngressDeleted sampleIC dnsWaitEnv).result = [] :=
  ⟨rfl, ⟨{ name := "default-wildcard" }, rfl⟩, rfl⟩

/-- C3 amended: on every deletion pass that does not halt early because the
wildcard DNS record is still observable (that halt returns nil and discards
errors collected so far), every executed step's error is included in the
aggregate error returned by `ensureIngressDeleted`. -/
theorem deletion_errors_aggregated_when_not_waiting
    (ingress : IngressController) (env : DeletionEnv)
    (h : ∀ rec, env.currentWildcardDNSRecordResult ≠ Except.ok (some rec)) :
    (∀ e, env.finalizeLoadBalancerServiceResult = some e →
      ("failed to finalize load balancer service for " ++ ingress.ns ++ "/" ++ ingress.name ++ ": " ++ e)
        ∈ (ensureIngressDeleted ingress env).result) ∧
    (∀ e, env.deleteWildcardDNSRecordResult = some e →
      ("failed to delete wildcard dnsrecord: " ++ e) ∈ (ensureIngressDeleted ingress env).result) ∧
    (∀ e, env.currentWildcardDNSRecordResult = Except.error e →
      ("failed to get current wildcard dnsrecord: " ++ e) ∈ (ensureIngressDeleted ingress env).result) ∧
    (∀ e, env.ensureRouterDeletedResult = some e →
      ("failed to delete deployment for ingress " ++ ingress.name ++ ": " ++ e)
        ∈ (ensureIngressDeleted ingress env).result) ∧
    (∀ e, env.removeFinalizerUpdateResult = some e →
      (ensureIngressDeleted ingress env).finalizerUpdateIssued = true →
      ("failed to remove finalizer from ingresscontroller " ++ ingress.name ++ ": " ++ e)
        ∈ (ensureIngressDeleted ingress env).result) := by
  rcases hc : env.currentWildcardDNSRecordResult with e3 | o
  case ok =>
    rcases o with _ | rec
    case some => exact absurd hc (h rec)
    case none =>
      rcases hf : env.finalizeLoadBalancerServiceResult with _ | e1 <;>
        rcases hd : env.deleteWildcardDNSRecordResult with _ | e2 <;>
        rcases hr : env.ensureRouterDeletedResult with _ | e4 <;>
        rcases hrm : env.removeFinalizerUpdateResult with _ | e5 <;>
        by_cases hfin : IngressControllerFinalizer ∈ ingress.finalizers <;>
        simp [ensureIngressDeleted, ensureIngressDeletedTail, hf, hd, hc, hr, hrm, hfin]
  case error =>
    rcases hf : env.finalizeLoadBalancerServiceResult with _ | e1 <;>
      rcases hd : env.deleteWildcardDNSRecordResult with _ | e2 <;>
      rcases hr : env.ensureRouterDeletedResult with _ | e4 <;>
      rcases hrm : env.removeFinalizerUpdateResult with _ | e5 <;>
      by_cases hfin : IngressControllerFinalizer ∈ ingress.finalizers <;>
      simp [ensureIngressDeleted, ensureIngressDeletedTail, hf, hd, hc, hr, hrm, hfin]

theorem deletion_errors_aggregated_when_not_waiting_witness :
    ("failed to finalize load balancer service for " ++ sampleIC.ns ++ "/" ++ sampleIC.name ++ ": " ++ "lb finalize failed")
      ∈ (ensureIngressDeleted sampleIC
          { dnsWaitEnv with currentWildcardDNSRecordResult := Except.ok none }).result :=
  (deletion_errors_aggregated_when_not_waiting sampleIC
    { dnsWaitEnv with currentWildcardDNSRecordResult := Except.ok none }
    (fun rec hrec => by simp at hrec)).1 "lb finalize failed" rfl

/-! ## C2 -/

/-- A convergence-pass environment in which every collaborator call succeeds. -/
def convergeOkEnv : ConvergeEnv :=
  { updateFinalizersResult := none,
    getAfterUpdateResult := Except.ok sampleIC,
    ensureRouterNamespaceResult := none,
    ensureRouterDeploymentResult := Except.ok { name := "router-default", uid := "dep-uid" },
    ensureLoadBalancerServiceResult := Except.ok (some { name := "router-default" }),
    ensureWildcardDNSRecordResult := Except.ok { name := "default-wildcard" },
    ensureInternalServiceResult := Except.ok { name := "router-internal-default" },
    ensureMetricsIntegrationResult := none,
    ensureRsyslogConfigMapResult := none,
    ensureRouterPodDisruptionBudgetResult := none,
    listEventsResult := Except.ok 0,
    syncStatusResult := none }

/-- The same environment except that ensuring the router deployment fails. -/
def deploymentFailEnv : ConvergeEnv :=
  { convergeOkEnv with ensureRouterDeploymentResult := Except.error "cloud quota exceeded" }

/-- The sample record carrying the teardown finalizer. -/
def finalizedIC : IngressController :=
  { sampleIC with finalizers := [IngressControllerFinalizer] }

/-- C2 counterexample: when ensuring the router deployment fails,
`ensureIngressController` aborts at once with that single wrapped error; the
remaining branches (load-balancer service, internal service, config map,
disruption budget, event list, status sync) are not attempted and no skip
errors for them are recorded. -/
theorem deployment_failure_aborts_pass :
    ensureIngressController finalizedIC deploymentFailEnv =
      { result := some (GoError.single "failed to ensure deployment: cloud quota exceeded"),
        attempted := ["routerNamespace", "routerDeployment"] } := by
  decide

/-- C2 amended: a failure to ensure the router deployment aborts the
convergence pass immediately — the pass returns that single wrapped error and
none of the remaining branches is attempted. -/
theorem deployment_failure_aborts
    (ci : IngressController) (env : ConvergeEnv) (e : String)
    (hfin : IngressControllerFinalizer ∈ ci.finalizers)
    (hns : env.ensureRouterNamespaceResult = none)
    (hdep : env.ensureRouterDeploymentResult = Except.error e) :
    ensureIngressController ci env =
      { result := some (GoError.single ("failed to ensure deployment: " ++ e)),
        attempted := ["routerNamespace", "routerDeployment"] } := by
  simp [ensureIngressController, hfin, hns, hdep]

theorem deployment_failure_aborts_witness :
    ensureIngressController finalizedIC deploymentFailEnv =
      { result := some (GoError.single ("failed to ensure deployment: " ++ "cloud quota exceeded")),
        attempted := ["routerNamespace", "routerDeployment"] } :=
  deployment_failure_aborts finalizedIC deploymentFailEnv "cloud quota exceeded"
    (by decide) rfl rfl

/-! ## C4 -/

/-- `validateDomainUniqueness` passes exactly when no other admitted record in
the list carries the same status domain under a different UID. -/
theorem validateDomainUniqueness_none_iff
    (d : IngressController) (items : List IngressController) :
    validateDomainUniqueness d items = none ↔
      ∀ c ∈ items, ¬(isAdmitted c = true ∧ d.uid ≠ c.uid ∧ d.status.domain = c.status.domain) := by
  induction items with
  | nil => simp [validateDomainUniqueness]
  | cons c rest ih =>
    unfold validateDomainUniqueness
    by_cases ha : isAdmitted c = false
    · simp [ha, ih]
    · have ha2 : isAdmitted c = true := by
        cases hb : isAdmitted c
        · exact absurd hb ha
        · rfl
      by_cases hcond : d.uid ≠ c.uid ∧ d.status.domain = c.status.domain
      · simp [ha2, hcond]
      · simp [ha2, hcond, ih]
        intro _ huid hdom
        exact hcond ⟨huid, hdom⟩

/-- When `validateDomainUniqueness` fails, the conflicting record is an
admitted member of the list with a different UID and the same status domain,
and the message names it. -/
theorem validateDomainUniqueness_some
    (d : IngressController) (items : List IngressController) (m : String)
    (h : validateDomainUniqueness d items = some m) :
    ∃ c ∈ items, isAdmitted c = true ∧ d.uid ≠ c.uid ∧ d.status.domain = c.status.domain ∧
      m = "conflicts with: " ++ c.name := by
  induction items with
  | nil => simp [validateDomainUniqueness] at h
  | cons c rest ih =>
    unfold validateDomainUniqueness at h
    by_cases ha : isAdmitted c = false
    · rw [if_pos ha] at h
      obtain ⟨c2, hc2, hrest⟩ := ih h
      exact ⟨c2, List.mem_cons_of_mem c hc2, hrest⟩
    · have ha2 : isAdmitted c = true := by
        cases hb : isAdmitted c
        · exact absurd hb ha
        · rfl
      rw [if_neg ha] at h
      by_cases hcond : d.uid ≠ c.uid ∧ d.status.domain = c.status.domain
      · rw [if_pos hcond] at h
        refine ⟨c, List.mem_cons_self c rest, ha2, hcond.1, hcond.2, ?_⟩
        injection h with h2
        exact h2.symm
      · rw [if_neg hcond] at h
        obtain ⟨c2, hc2, hrest⟩ := ih h
        exact ⟨c2, List.mem_cons_of_mem c hc2, hrest⟩

/-- C4: validation rejects a record exactly when, after defaulting, its
effective status domain is empty or equals the status domain of another
already-admitted record with a different unique ID; on a uniqueness conflict
the rejection reason contains the conflicting record's name; and the two
validation checks are aggregated into one rejection rather than
short-circuiting on the first failure. -/
theorem validation_rejects_iff (ic : IngressController) (items : List IngressController) :
    ((∃ r, validate ic (Except.ok items) = some (AdmitError.rejection r)) ↔
      (ic.status.domain.length = 0 ∨
        ∃ c ∈ items, isAdmitted c = true ∧ ic.uid ≠ c.uid ∧ ic.status.domain = c.status.domain)) ∧
    (∀ m, validateDomainUniqueness ic items = some m →
      ∃ r, validate ic (Except.ok items) = some (AdmitError.rejection r) ∧
        ∃ c ∈ items, isAdmitted c = true ∧ ic.uid ≠ c.uid ∧ ic.status.domain = c.status.domain ∧
          containsSubstr r c.name) ∧
    (∀ d u, validateDomain ic = some d → validateDomainUniqueness ic items = some u →
      validate ic (Except.ok items) = some (AdmitError.rejection (aggregateErrorString [d, u]))) := by
  refine ⟨?_, ?_, ?_⟩
  · by_cases hl : ic.status.domain.length = 0 <;>
      rcases hu : validateDomainUniqueness ic items with _ | m
    · simp [validate, validateDomain, hl, hu, aggregateErrorString]
    · simp only [validate, validateDomain, if_pos hl, hu]
      simp only [List.cons_append, List.nil_append]
      constructor
      · intro _
        exact Or.inl hl
      · intro _
        exact ⟨aggregateErrorString ["domain is required", m], rfl⟩
    · simp only [validate, validateDomain, if_neg hl, hu, List.nil_append]
      constructor
      · rintro ⟨r, hr⟩
        cases hr
      · rintro (h1 | ⟨c, hc, hadm, huid, hdom⟩)
        · exact absurd h1 hl
        · exfalso
          exact (validateDomainUniqueness_none_iff ic items).1 hu c hc ⟨hadm, huid, hdom⟩
    · simp only [validate, validateDomain, if_neg hl, hu, List.nil_append]
      constructor
      · intro _
        obtain ⟨c, hc, hadm, huid, hdom, _⟩ := validateDomainUniqueness_some ic items m hu
        exact Or.inr ⟨c, hc, hadm, huid, hdom⟩
      · intro _
        exact ⟨aggregateErrorString [m], rfl⟩
  · intro m hu
    obtain ⟨c, hc, hadm, huid, hdom, hm⟩ := validateDomainUniqueness_some ic items m hu
    by_cases hl : ic.status.domain.length = 0
    · refine ⟨aggregateErrorString ["domain is required", m], ?_, c, hc, hadm, huid, hdom, ?_⟩
      · simp [validate, validateDomain, hl, hu]
      · refine ⟨("[" ++ "domain is required" ++ ", " ++ "conflicts with: ").data, "]".data, ?_⟩
        subst hm
        simp [aggregateErrorString, joinComma, string_data_append]
    · refine ⟨aggregateErrorString [m], ?_, c, hc, hadm, huid, hdom, ?_⟩
      · simp [validate, validateDomain, hl, hu]
      · refine ⟨"conflicts with: ".data, [], ?_⟩
        subst hm
        simp [aggregateErrorString, string_data_append]
  · intro d u hd hu
    have hl : ic.status.domain.length = 0 := by
      by_contra hl
      simp [validateDomain, hl] at hd
    have hd2 : d = "domain is required" := by
      simp [validateDomain, hl] at hd
      exact hd.symm
    subst hd2
    simp [validate, validateDomain, hl, hu]

/-- A first record already admitted for `apps.example.com`. -/
def admittedIC : IngressController :=
  { name := "first", ns := "openshift-ingress-operator", uid := "uid-first",
    deletionTimestamp := none, finalizers := [],
    spec := { domain := "apps.example.com", endpointPublishingStrategy := none },
    status := { domain := "apps.example.com", endpointPublishingStrategy := none,
                conditions := [{ type := IngressControllerAdmittedConditionType,
                                 status := ConditionTrue, reason := "Valid", message := "" }] } }

/-- A second record colliding with the first's admitted domain. -/
def collidingIC : IngressController :=
  { name := "second", ns := "openshift-ingress-operator", uid := "uid-second",
    deletionTimestamp := none, finalizers := [],
    spec := { domain := "apps.example.com", endpointPublishingStrategy := none },
    status := { domain := "apps.example.com", endpointPublishingStrategy := none,
                conditions := [] } }

theorem validation_rejects_iff_witness :
    ∃ r, validate collidingIC (Except.ok [admittedIC]) = some (AdmitError.rejection r) ∧
      ∃ c ∈ [admittedIC], isAdmitted c = true ∧ collidingIC.uid ≠ c.uid ∧
        collidingIC.status.domain = c.status.domain ∧ containsSubstr r c.name :=
  (validation_rejects_iff collidingIC [admittedIC]).2.1
    ("conflicts with: " ++ "first") (by decide)

/-! ## C7 -/

/-- `admit` never mutates the caller's record: every branch returns the
caller's record unchanged, mutating only the deep copy. -/
theorem admit_callerRecord_unchanged
    (current : IngressController) (ingressConfig : Ingress) (infraConfig : Infrastructure)
    (env : AdmitEnv) :
    (admitIngressController current ingressConfig infraConfig env).callerRecord = current := by
  rcases hv : validate (admitDefaulted current ingressConfig infraConfig) env.listResult with
    _ | ae
  · simp only [admitIngressController, hv]
    split
    · rfl
    · split <;> rfl
  · cases ae with
    | rejection reason =>
      simp only [admitIngressController, hv]
      split
      · rfl
      · split <;> rfl
    | operational msg =>
      simp only [admitIngressController, hv]

/-- C7: `admit`'s only persistent side effect is a status write, and the
write is issued exactly when the computed status differs from the current
status: every issued effect is a status update of the final computed record;
on an operational validation failure no effect is issued; otherwise the
status update is issued iff `ingressStatusesEqual` on (current, updated) is
false; and no owned child resource is created, updated, or deleted. -/
theorem admit_status_write_iff_changed
    (current : IngressController) (ingressConfig : Ingress) (infraConfig : Infrastructure)
    (env : AdmitEnv) :
    (∀ ef ∈ (admitIngressController current ingressConfig infraConfig env).effects,
      ef = Effect.statusUpdate (admitIngressController current ingressConfig infraConfig env).updated) ∧
    ((∃ e, validate (admitDefaulted current ingressConfig infraConfig) env.listResult =
        some (AdmitError.operational e)) →
      (admitIngressController current ingressConfig infraConfig env).effects = []) ∧
    ((∀ e, validate (admitDefaulted current ingressConfig infraConfig) env.listResult ≠
        some (AdmitError.operational e)) →
      (admitIngressController current ingressConfig infraConfig env).effects =
        (if ingressStatusesEqual current.status
              (admitIngressController current ingressConfig infraConfig env).updated.status
         then []
         else [Effect.statusUpdate (admitIngressController current ingressConfig infraConfig env).updated])) := by
  refine ⟨admit_effects_all_statusUpdate current ingressConfig infraConfig env, ?_, ?_⟩
  · rintro ⟨e, hv⟩
    simp only [admitIngressController, hv]
  · intro hnop
    rcases hv : validate (admitDefaulted current ingressConfig infraConfig) env.listResult with
      _ | ae
    · simp only [admitIngressController, hv]
      split
      · simp_all
      · split <;> simp_all
    · cases ae with
      | rejection reason =>
        simp only [admitIngressController, hv]
        split
        · simp_all
        · split <;> simp_all
      | operational msg =>
        exact absurd hv (hnop msg)

theorem admit_status_write_iff_changed_witness :
    (admitIngressController sampleIC sampleIngressConfig sampleInfraConfig
        { listResult := Except.ok [], statusUpdateResult := none }).effects =
      (if ingressStatusesEqual sampleIC.status
            (admitIngressController sampleIC sampleIngressConfig sampleInfraConfig
              { listResult := Except.ok [], statusUpdateResult := none }).updated.status
       then []
       else [Effect.statusUpdate
              (admitIngressController sampleIC sampleIngressConfig sampleInfraConfig
                { listResult := Except.ok [], statusUpdateResult := none }).updated]) :=
  by
  have h0 : validate (admitDefaulted sampleIC sampleIngressConfig sampleInfraConfig)
      (Except.ok []) = (none : Option AdmitError) := by decide
  exact (admit_status_write_iff_changed sampleIC sampleIngressConfig sampleInfraConfig
      { listResult := Except.ok [], statusUpdateResult := none }).2.2
    (fun e hv => Option.noConfusion (h0.symm.trans hv))

/-! ## C9 -/

/-- C9: `admit` is atomic on operational error — when listing the sibling
records fails, `admit` returns that operational error with no status write;
and on every `admit` call the caller's in-memory record (spec and status) is
left unchanged, because `admit` mutates only a deep copy. -/
theorem admit_atomic_on_list_error
    (current : IngressController) (ingressConfig : Ingress) (infraConfig : Infrastructure)
    (env : AdmitEnv) (e : String) (h : env.listResult = Except.error e) :
    (admitIngressController current ingressConfig infraConfig env).effects = [] ∧
    (admitIngressController current ingressConfig infraConfig env).result =
      some (AdmitError.operational ("failed to list ingresscontrollers: " ++ e)) ∧
    (∀ env2 : AdmitEnv, (admitIngressController current ingressConfig infraConfig env2).callerRecord = current) := by
  have hv : validate (admitDefaulted current ingressConfig infraConfig) env.listResult =
      some (AdmitError.operational ("failed to list ingresscontrollers: " ++ e)) := by
    simp [validate, h]
  refine ⟨?_, ?_, fun env2 => admit_callerRecord_unchanged current ingressConfig infraConfig env2⟩
  · simp only [admitIngressController, hv]
  · simp only [admitIngressController, hv]

theorem admit_atomic_on_list_error_witness :
    (admitIngressController sampleIC sampleIngressConfig sampleInfraConfig
        { listResult := Except.error "etcd unavailable", statusUpdateResult := none }).effects = [] ∧
    (admitIngressController sampleIC sampleIngressConfig sampleInfraConfig
        { listResult := Except.error "etcd unavailable", statusUpdateResult := none }).result =
      some (AdmitError.operational ("failed to list ingresscontrollers: " ++ "etcd unavailable")) :=
  ⟨(admit_atomic_on_list_error sampleIC sampleIngressConfig sampleInfraConfig
      { listResult := Except.error "etcd unavailable", statusUpdateResult := none }
      "etcd unavailable" rfl).1,
   (admit_atomic_on_list_error sampleIC sampleIngressConfig sampleInfraConfig
      { listResult := Except.error "etcd unavailable", statusUpdateResult := none }
      "etcd unavailable" rfl).2.1⟩

/-! ## C8 -/

/-- C8: `Reconcile` maps outcomes as — NotFound on the record fetch is done
with nil error; an AdmissionRejection from admit records a Warning event and
is done with nil error; a successful admission records a Normal event and
requeues immediately with nil error; any other admit error, and a non-NotFound
get error, is returned as an operational error. -/
theorem Reconcile_outcome_map (env : ReconcileEnv) :
    (env.getIngressResult = Except.error GetError.notFound →
      Reconcile env = { requeue := false, error := none, events := [] }) ∧
    (∀ e, env.getIngressResult = Except.error (GetError.other e) →
      Reconcile env =
        { requeue := false, error := some ("failed to get ingresscontroller: " ++ e),
          events := [] }) ∧
    (∀ ingress infraConfig ingressConfig,
      env.getIngressResult = Except.ok ingress →
      ingress.deletionTimestamp = none →
      env.getDNSConfigResult = none →
      env.getInfraConfigResult = Except.ok infraConfig →
      env.getIngressConfigResult = Except.ok ingressConfig →
      isAdmitted ingress = false →
      ((∀ reason,
        (admitIngressController ingress ingressConfig infraConfig env.admitEnv).result =
            some (AdmitError.rejection reason) →
        Reconcile env =
          { requeue := false, error := none, events := [("Warning", "Rejected", reason)] }) ∧
       ((admitIngressController ingress ingressConfig infraConfig env.admitEnv).result = none →
        Reconcile env =
          { requeue := true, error := none,
            events := [("Normal", "Admitted", "ingresscontroller passed validation")] }) ∧
       (∀ e,
        (admitIngressController ingress ingressConfig infraConfig env.admitEnv).result =
            some (AdmitError.operational e) →
        Reconcile env =
          { requeue := false, error := some ("failed to admit ingresscontroller: " ++ e),
            events := [] }))) := by
  refine ⟨?_, ?_, ?_⟩
  · intro h
    simp [Reconcile, h]
  · intro e h
    simp [Reconcile, h]
  · intro ingress infraConfig ingressConfig hget hdel hdns hinfra hicfg hadm
    refine ⟨?_, ?_, ?_⟩
    · intro reason hres
      simp [Reconcile, hget, hdel, hdns, hinfra, hicfg, hadm, hres]
    · intro hres
      simp [Reconcile, hget, hdel, hdns, hinfra, hicfg, hadm, hres]
    · intro e hres
      simp [Reconcile, hget, hdel, hdns, hinfra, hicfg, hadm, hres]

/-- A reconcile environment whose reads all succeed, admitting the sample
record (empty spec domain defaulted from the cluster ingress config). -/
def reconcileOkEnv : ReconcileEnv :=
  { getIngressResult := Except.ok sampleIC,
    deletionEnv := dnsWaitEnv,
    getDNSConfigResult := none,
    getInfraConfigResult := Except.ok sampleInfraConfig,
    getIngressConfigResult := Except.ok sampleIngressConfig,
    admitEnv := { listResult := Except.ok [], statusUpdateResult := none },
    convergeEnv := convergeOkEnv }

theorem Reconcile_outcome_map_witness :
    Reconcile { reconcileOkEnv with getIngressResult := Except.error GetError.notFound } =
      { requeue := false, error := none, events := [] } ∧
    Reconcile { reconcileOkEnv with getIngressResult := Except.error (GetError.other "boom") } =
      { requeue := false, error := some ("failed to get ingresscontroller: " ++ "boom"),
        events := [] } ∧
    Reconcile reconcileOkEnv =
      { requeue := true, error := none,
        events := [("Normal", "Admitted", "ingresscontroller passed validation")] } ∧
    Reconcile { reconcileOkEnv with
        getIngressConfigResult := Except.ok { spec := { domain := "" } } } =
      { requeue := false, error := none, events := [("Warning", "Rejected", "domain is required")] } ∧
    Reconcile { reconcileOkEnv with
        admitEnv := { listResult := Except.error "etcd unavailable", statusUpdateResult := none } } =
      { requeue := false,
        error := some ("failed to admit ingresscontroller: " ++
          ("failed to list ingresscontrollers: " ++ "etcd unavailable")),
        events := [] } :=
  ⟨(Reconcile_outcome_map
      { reconcileOkEnv with getIngressResult := Except.error GetError.notFound }).1 rfl,
   (Reconcile_outcome_map
      { reconcileOkEnv with getIngressResult := Except.error (GetError.other "boom") }).2.1
     "boom" rfl,
   ((Reconcile_outcome_map reconcileOkEnv).2.2 sampleIC sampleInfraConfig sampleIngressConfig
     rfl rfl rfl rfl rfl (by decide)).2.1 (by decide),
   ((Reconcile_outcome_map
       { reconcileOkEnv with
          getIngressConfigResult := Except.ok { spec := { domain := "" } } }).2.2
     sampleIC sampleInfraConfig { spec := { domain := "" } }
     rfl rfl rfl rfl rfl (by decide)).1 "domain is required" (by decide),
   ((Reconcile_outcome_map
       { reconcileOkEnv with
          admitEnv := { listResult := Except.error "etcd unavailable",
                        statusUpdateResult := none } }).2.2
     sampleIC sampleInfraConfig sampleIngressConfig
     rfl rfl rfl rfl rfl (by decide)).2.2
     ("failed to list ingresscontrollers: " ++ "etcd unavailable") (by decide)⟩

end ClusterIngress
